import Mathlib

/-!
Shallow embedding of the Kakera single-page application's view/session/entry
lifecycle controller (src/src/App.tsx, current revision — the component defined
from line 1380 on).  React state hooks become fields of an explicit `AppState`
record; each event handler becomes a pure function from the pre-state (plus the
responses of the external store/storage calls it issues) to the post-state.
`alert(...)` calls are modelled by appending the message to an `alerts` list,
and the `?share=` URL query parameter by an `urlShare : Option String` field
(`window.history.replaceState` with the bare pathname sets it to `none`).
-/

namespace Kakera

/-- User object carried by the identity provider's session (only the stable
`id` is consumed by the logic under proof). -/
structure UserT where
  id : String
deriving Repr, DecidableEq

/-- Row of the `projects` table as selected by the app
(`id, name, description, created_at, user_id, share_id`). -/
structure Project where
  id : String
  name : String
  description : String
  created_at : String
  user_id : String
  share_id : Option String
deriving Repr, DecidableEq

/-- Entry kind: `'image' | 'audio' | 'text'`. -/
inductive EntryType
  | image
  | audio
  | text
deriving Repr, DecidableEq

/-- Row of the `progress_entries` table as selected by the app. -/
structure ProgressEntry where
  id : String
  type : EntryType
  url : Option String
  notes : String
  timestamp : Nat
  project_id : String
  user_id : Option String
  is_public : Bool
  category : Option String
  color : Option String
deriving Repr, DecidableEq

/-- Local file selected in the upload form; `ctype` is its declared content
type (`File.type` in the browser). -/
structure FileT where
  name : String
  ctype : String
deriving Repr, DecidableEq

/-- The four base views of the navigation controller. -/
inductive View
  | home
  | dashboard
  | project
  | publicFeed
deriving Repr, DecidableEq

/-- All React `useState` hooks of the `App` component (App.tsx lines
1381-1407), as one record.  `allEntries` keeps only the timestamps, exactly
like the `{ timestamp }` objects the code stores. -/
structure AppState where
  user : Option UserT
  view : View
  projects : List Project
  selectedProject : Option Project
  entries : List ProgressEntry
  allEntries : List Nat
  publicEntries : List ProgressEntry
  loading : Bool
  publicLoading : Bool
  uploading : Bool
  showUpload : Bool
  editingEntry : Option ProgressEntry
  editingProject : Option Project
  showCreateProject : Bool
  newProjectName : String
  newProjectDesc : String
  uploadType : Option EntryType
  isPublic : Bool
  selectedCategory : String
  selectedColor : String
  filterCategory : String
  notes : String
  file : Option FileT
  previewUrl : Option String
  urlShare : Option String
  alerts : List String
deriving Repr, DecidableEq

/-- Model of `alert(msg)`: the user-visible message is recorded. -/
def pushAlert (st : AppState) (msg : String) : AppState :=
  { st with alerts := st.alerts ++ [msg] }

/-- Model of `fetchEntries(projectId)` (App.tsx 1502-1514): the store response
is `some rows` on success and `none` on error (error only logged, list kept). -/
def fetchEntries (st : AppState) (resp : Option (List ProgressEntry)) : AppState :=
  match resp with
  | none => st
  | some data => { st with entries := data }

/-- Model of `fetchAllEntries(currentUser)` (App.tsx 1491-1500): selects the
entry timestamps of the user; on error the list is kept. -/
def fetchAllEntries (st : AppState) (resp : Option (List Nat)) : AppState :=
  match resp with
  | none => st
  | some data => { st with allEntries := data }

/-- Model of `fetchProjectsWithUser(currentUser)` (App.tsx 1474-1489): on
success stores the project rows and chains `fetchAllEntries`; on error only
logs.  `loading` is toggled around the call. -/
def fetchProjectsWithUser (st : AppState) (resp : Option (List Project))
    (allResp : Option (List Nat)) : AppState :=
  let st := { st with loading := true }
  match resp with
  | none => { st with loading := false }
  | some data =>
      let st := { st with projects := data }
      let st := fetchAllEntries st allResp
      { st with loading := false }

/-- Model of `fetchProjects()` (App.tsx 1470-1472). -/
def fetchProjects (st : AppState) (resp : Option (List Project))
    (allResp : Option (List Nat)) : AppState :=
  match st.user with
  | some _ => fetchProjectsWithUser st resp allResp
  | none => st

/-- Model of `fetchPublicEntries()` (App.tsx 1516-1532). -/
def fetchPublicEntries (st : AppState) (resp : Option (List ProgressEntry)) : AppState :=
  let st := { st with publicLoading := true }
  match resp with
  | none => { st with publicLoading := false }
  | some data => { st with publicEntries := data, publicLoading := false }

/-- Model of `handleLoadSharedProject(shareId, currentUser)` (App.tsx
1452-1468).  `resp` is the result of the `share_id` lookup: `none` covers both
the error and the missing-row case (`if (error || !data)`); on failure an
alert is raised and `history.replaceState` strips the query string. -/
def handleLoadSharedProject (st : AppState) (resp : Option Project)
    (entriesResp : Option (List ProgressEntry)) : AppState :=
  match resp with
  | none =>
      let st := pushAlert st "共有リンクが無効、または期限切れです。"
      { st with urlShare := none }
  | some data =>
      let st := { st with selectedProject := some data }
      let st := fetchEntries st entriesResp
      { st with view := View.project }

/-- Model of the `init` startup effect (App.tsx 1409-1431): read the session,
then either resolve a share token from the URL or load the signed-in user's
projects. -/
def init (st : AppState) (session : Option UserT)
    (sharedResp : Option Project) (sharedEntriesResp : Option (List ProgressEntry))
    (projResp : Option (List Project)) (allResp : Option (List Nat)) : AppState :=
  let st := { st with loading := true, user := session }
  let st :=
    match st.urlShare with
    | some _ => handleLoadSharedProject st sharedResp sharedEntriesResp
    | none =>
        match session with
        | some _ => fetchProjectsWithUser st projResp allResp
        | none => st
  { st with loading := false }

/-- Model of the `onAuthStateChange` listener body (App.tsx 1434-1447): on a
session event the user is replaced; a signed-in session reloads the projects,
a signed-out one clears the project list and returns home unless a share token
is still in the URL. -/
def onAuthStateChange (st : AppState) (session : Option UserT)
    (projResp : Option (List Project)) (allResp : Option (List Nat)) : AppState :=
  let st := { st with user := session }
  match session with
  | some _ => fetchProjectsWithUser st projResp allResp
  | none =>
      match st.urlShare with
      | some _ => st
      | none => { st with projects := [], view := View.home }

/-- Application start: the `init` effect runs, then the listener registered
with `onAuthStateChange` receives the identity provider's initial session
notification carrying the same session (the supabase-js auth client emits an
initial-session event to every listener right after subscription). -/
def startup (st : AppState) (session : Option UserT)
    (sharedResp : Option Project) (sharedEntriesResp : Option (List ProgressEntry))
    (projResp : Option (List Project)) (allResp : Option (List Nat))
    (projResp2 : Option (List Project)) (allResp2 : Option (List Nat)) : AppState :=
  onAuthStateChange (init st session sharedResp sharedEntriesResp projResp allResp)
    session projResp2 allResp2

/-- Model of `isSharedView` (App.tsx 1783): whether the current URL still
carries a `share` parameter. -/
def isSharedView (st : AppState) : Bool :=
  st.urlShare.isSome

/-- The render function returns the standalone `AuthView` exactly when there is
no user and no share parameter (`if (!user && !isSharedView)`, App.tsx 1826). -/
def showsAuthView (st : AppState) : Bool :=
  st.user.isNone && !(isSharedView st)

/-- Model of `handleSelectProject(project)` (App.tsx 1594-1599). -/
def handleSelectProject (st : AppState) (project : Project)
    (entriesResp : Option (List ProgressEntry)) : AppState :=
  let st := { st with selectedProject := some project }
  let st := fetchEntries st entriesResp
  { st with view := View.project }

/-- Model of `handleBack()` (App.tsx 1601-1617): strips a `share=` parameter
from the URL if present, then navigates: from `project` back to `dashboard`
clearing the selected project and its entries, otherwise to `home`. -/
def handleBack (st : AppState) : AppState :=
  let st := if st.urlShare.isSome then { st with urlShare := none } else st
  if st.view = View.project then
    { st with view := View.dashboard, selectedProject := none, entries := [] }
  else
    { st with view := View.home }

/-- Whether the first list is a character-wise prefix of the second. -/
def charsPrefix : List Char → List Char → Bool
  | [], _ => true
  | _ :: _, [] => false
  | c :: cs, d :: ds => c == d && charsPrefix cs ds

/-- Model of the JavaScript string method `s.startsWith(p)` (structural, so it
evaluates inside the kernel). -/
def strStartsWith (s p : String) : Bool :=
  charsPrefix p.data s.data

/-- Model of the JavaScript string method `s.trim()`: strip leading and
trailing whitespace (structural, so it evaluates inside the kernel). -/
def strTrim (s : String) : String :=
  ⟨((s.data.dropWhile Char.isWhitespace).reverse.dropWhile Char.isWhitespace).reverse⟩

/-- Model of `handleFileChange` (App.tsx 1619-1627): a selected file is stored
together with a preview object URL, and classified as `image` when its content
type starts with `image/`, as `audio` otherwise.  No file is ever rejected. -/
def handleFileChange (st : AppState) (selectedFile : Option FileT)
    (objectUrl : String) : AppState :=
  match selectedFile with
  | none => st
  | some f =>
      { st with
          file := some f
          previewUrl := some objectUrl
          uploadType := some (if strStartsWith f.ctype "image/" then EntryType.image
                              else EntryType.audio) }

/-- Row returned by the project `insert(...).select('id, name, description,
created_at, user_id')` call (App.tsx 1570-1573) — note that `share_id` is not
among the selected columns. -/
structure ProjectRow where
  id : String
  name : String
  description : String
  created_at : String
  user_id : String
deriving Repr, DecidableEq

/-- Model of `handleCreateProject()` (App.tsx 1534-1592).  `uuid` is the value
produced by `crypto.randomUUID()`; `updateResp` / `insertResp` are the store
responses of the update branch (editing an existing project) and of the create
branch; `entriesResp` feeds the `fetchEntries` call made through
`handleSelectProject` after a successful creation.  A thrown store error is
caught and alerted as `エラー: <message>`. -/
def handleCreateProject (st : AppState) (uuid : String)
    (updateResp : Except String (List Project))
    (insertResp : Except String (List ProjectRow))
    (entriesResp : Option (List ProgressEntry)) : AppState :=
  if st.newProjectName = "" then st
  else
    let st1 := { st with uploading := true }
    let st2 :=
      match st1.editingProject with
      | some ep =>
          match updateResp with
          | Except.error msg => pushAlert st1 ("エラー: " ++ msg)
          | Except.ok [] => st1
          | Except.ok (row :: _) =>
              let updatedProject := row
              let newProjects := st1.projects.map
                (fun (p : Project) => if p.id = ep.id then updatedProject else p)
              let st1 := { st1 with projects := newProjects }
              let st1 :=
                if st1.selectedProject.map Project.id = some ep.id then
                  { st1 with selectedProject := some updatedProject }
                else st1
              { st1 with showCreateProject := false, editingProject := none,
                         newProjectName := "", newProjectDesc := "" }
      | none =>
          match insertResp with
          | Except.error msg => pushAlert st1 ("エラー: " ++ msg)
          | Except.ok [] => st1
          | Except.ok (row :: _) =>
              let createdProject : Project :=
                { id := row.id, name := row.name, description := row.description,
                  created_at := row.created_at, user_id := row.user_id,
                  share_id := some uuid }
              let st1 := { st1 with
                projects := createdProject :: st1.projects,
                showCreateProject := false,
                newProjectName := "", newProjectDesc := "",
                view := View.dashboard }
              handleSelectProject st1 createdProject entriesResp
    { st2 with uploading := false }

/-- Row sent to the store by `handleUpload` (the `newEntry` object, App.tsx
1665-1675); the server assigns the `id`, so the request row has none. -/
structure EntryWrite where
  type : EntryType
  url : Option String
  notes : String
  timestamp : Nat
  project_id : String
  user_id : Option String
  is_public : Bool
  category : Option String
  color : Option String
deriving Repr, DecidableEq

/-- Result of one `handleUpload` run: the post-state, the `newEntry` row sent
to the store (`none` when no database write was issued), and whether a storage
upload was attempted. -/
structure UploadOutcome where
  state : AppState
  written : Option EntryWrite
  storageAttempted : Bool
deriving Repr, DecidableEq

/-- Fallback applied to the caught error message in `handleUpload`
(`error.message || '通信エラーまたは権限不足です'`). -/
def uploadErrMsg (msg : String) : String :=
  if msg = "" then "通信エラーまたは権限不足です" else msg

/-- Stable descending sort by `timestamp`, modelling
`[...].sort((a, b) => b.timestamp - a.timestamp)` (App.tsx 1710). -/
def insertByTimestampDesc (e : ProgressEntry) :
    List ProgressEntry → List ProgressEntry
  | [] => [e]
  | x :: xs =>
      if e.timestamp ≥ x.timestamp then e :: x :: xs
      else x :: insertByTimestampDesc e xs

/-- Stable descending sort by `timestamp` (insertion sort). -/
def sortByTimestampDesc : List ProgressEntry → List ProgressEntry
  | [] => []
  | x :: xs => insertByTimestampDesc x (sortByTimestampDesc xs)

/-- The `newEntry` object built by `handleUpload` from the form state and the
`finalUrl` of the storage step (App.tsx 1665-1675): `url` is null for text
entries, the freshly uploaded URL when one was obtained, and otherwise the
edited entry's previous URL; timestamp and project are taken from the edited
entry when editing. -/
def buildEntryWrite (st : AppState) (ut : EntryType) (finalUrl : String)
    (now : Nat) : EntryWrite :=
  { type := ut
    url :=
      if ut = EntryType.text then none
      else if finalUrl ≠ "" then some finalUrl
      else
        match st.editingEntry with
        | some e => e.url
        | none => none
    notes := st.notes
    timestamp :=
      match st.editingEntry with
      | some e => e.timestamp
      | none => now
    project_id :=
      match st.editingEntry with
      | some e => e.project_id
      | none =>
          match st.selectedProject with
          | some p => p.id
          | none => ""
    user_id := st.user.map UserT.id
    is_public := st.isPublic
    category := if st.selectedCategory = "" then none else some st.selectedCategory
    color := if st.selectedColor = "" then none else some st.selectedColor }

/-- Second half of `handleUpload` (App.tsx 1665-1745): build the `newEntry`
row from the form state and `finalUrl` (empty when no file was uploaded),
issue the database write, and on success merge the returned row into the local
lists, run the consistency-backstop refetch and reset the form. -/
def uploadSave (st : AppState) (ut : EntryType) (finalUrl : String) (now : Nat)
    (dbResp : Except String (List ProgressEntry))
    (entriesResp2 publicResp2 : Option (List ProgressEntry))
    (attempted : Bool) : UploadOutcome :=
  let newEntry : EntryWrite := buildEntryWrite st ut finalUrl now
  match dbResp with
  | Except.error msg =>
      ⟨{ (pushAlert st ("保存失敗: " ++ uploadErrMsg msg)) with uploading := false },
        some newEntry, attempted⟩
  | Except.ok [] =>
      ⟨{ (pushAlert st ("保存失敗: " ++
            uploadErrMsg "データの保存には成功しましたが、戻り値の取得に失敗しました。"))
          with uploading := false },
        some newEntry, attempted⟩
  | Except.ok (savedEntry :: _) =>
      let st :=
        match st.editingEntry with
        | some ee =>
            let newEntries := st.entries.map
              (fun e => if e.id = ee.id then savedEntry else e)
            let st := { st with entries := newEntries }
            if savedEntry.is_public then
              let newPub :=
                if st.publicEntries.any (fun e => e.id == savedEntry.id) then
                  st.publicEntries.map
                    (fun e => if e.id = savedEntry.id then savedEntry else e)
                else
                  sortByTimestampDesc (savedEntry :: st.publicEntries)
              { st with publicEntries := newPub }
            else
              { st with publicEntries :=
                  st.publicEntries.filter (fun e => e.id != savedEntry.id) }
        | none =>
            let st := { st with
              entries := savedEntry :: st.entries,
              allEntries := savedEntry.timestamp :: st.allEntries }
            if st.isPublic then
              { st with publicEntries := savedEntry :: st.publicEntries }
            else st
      let st :=
        if st.view == View.project && st.selectedProject.isSome then
          fetchEntries st entriesResp2
        else if st.view == View.publicFeed then
          fetchPublicEntries st publicResp2
        else st
      let st := { st with
        showUpload := false, notes := "", file := none, previewUrl := none,
        uploadType := none, isPublic := false, selectedCategory := "",
        selectedColor := "", editingEntry := none, uploading := false }
      ⟨st, some newEntry, attempted⟩

/-- Model of `handleUpload()` (App.tsx 1628-1752).  `storageResp` is the
object-storage upload result (`ok publicUrl` carries the derived public URL),
`dbResp` the insert/update response, `entriesResp2`/`publicResp2` the
responses of the backstop refetch.  The three guard returns mirror App.tsx
1630-1635; a storage error is caught and alerted without a database write. -/
def handleUpload (st : AppState) (now : Nat)
    (storageResp : Except String String)
    (dbResp : Except String (List ProgressEntry))
    (entriesResp2 publicResp2 : Option (List ProgressEntry)) : UploadOutcome :=
  match st.uploadType with
  | none => ⟨st, none, false⟩
  | some ut =>
      if st.selectedProject = none ∧ st.editingEntry = none then ⟨st, none, false⟩
      else if ut ≠ EntryType.text ∧ st.file = none ∧ st.editingEntry = none then
        ⟨st, none, false⟩
      else if ut = EntryType.text ∧ strTrim st.notes = "" then ⟨st, none, false⟩
      else
        let st1 := { st with uploading := true }
        if ut ≠ EntryType.text ∧ st1.file.isSome then
          match storageResp with
          | Except.error msg =>
              ⟨{ (pushAlert st1 ("保存失敗: " ++ uploadErrMsg msg))
                  with uploading := false }, none, true⟩
          | Except.ok publicUrl =>
              uploadSave st1 ut publicUrl now dbResp entriesResp2 publicResp2 true
        else
          uploadSave st1 ut "" now dbResp entriesResp2 publicResp2 false

/-- Model of `handleDeleteProject(projectId)` (App.tsx 1785-1798): after the
confirm dialog, a failed delete is alerted; a successful one refetches the
project list. -/
def handleDeleteProject (st : AppState) (confirm : Bool)
    (resp : Option String) (projResp : Option (List Project))
    (allResp : Option (List Nat)) : AppState :=
  if !confirm then st
  else
    match resp with
    | some msg => pushAlert st ("削除失敗: " ++ msg)
    | none => fetchProjects st projResp allResp

/-- Model of `handleEdit(entry)` (App.tsx 1800-1809): loads the entry into the
upload form and opens the modal. -/
def handleEdit (st : AppState) (entry : ProgressEntry) : AppState :=
  { st with
      editingEntry := some entry
      uploadType := some entry.type
      notes := entry.notes
      isPublic := entry.is_public
      selectedCategory := entry.category.getD ""
      selectedColor := entry.color.getD ""
      previewUrl := entry.url
      showUpload := true }

/-- Model of `handleDeleteEntry(entryId)` (App.tsx 1811-1824): after the
confirm dialog, a failed delete is alerted (`削除失敗: <message>`, `resp =
some msg`); a successful one (`resp = none`) refetches only the selected
project's entry list. -/
def handleDeleteEntry (st : AppState) (confirm : Bool)
    (resp : Option String) (entriesResp : Option (List ProgressEntry)) : AppState :=
  if !confirm then st
  else
    match resp with
    | some msg => pushAlert st ("削除失敗: " ++ msg)
    | none =>
        match st.selectedProject with
        | some _ => fetchEntries st entriesResp
        | none => st

/-- Opening the create-project modal (`setShowCreateProject(true)`, App.tsx
1914, 2043, 2056). -/
def openCreateProjectModal (st : AppState) : AppState :=
  { st with showCreateProject := true }

/-- Closing the create-project modal via its X or cancel button (App.tsx
2260-2264, 2293-2297). -/
def closeCreateProjectModal (st : AppState) : AppState :=
  { st with showCreateProject := false, editingProject := none,
            newProjectName := "", newProjectDesc := "" }

/-- Opening the upload modal (`setShowUpload(true)`, App.tsx 2162, 2212). -/
def openUploadModal (st : AppState) : AppState :=
  { st with showUpload := true }

/-- Closing the upload modal via its X or cancel button (App.tsx 2336-2344,
2520-2528). -/
def closeUploadModal (st : AppState) : AppState :=
  { st with showUpload := false, editingEntry := none, notes := "",
            file := none, previewUrl := none, uploadType := none,
            selectedCategory := "", selectedColor := "" }

/-! Concrete fixtures used by the closed witnesses and counterexamples. -/

/-- Minimal concrete application state (all lists empty, nobody signed in,
no token in the URL, filter at its initial `all`). -/
def emptyState : AppState :=
  { user := none, view := View.home, projects := [], selectedProject := none,
    entries := [], allEntries := [], publicEntries := [], loading := false,
    publicLoading := false, uploading := false, showUpload := false,
    editingEntry := none, editingProject := none, showCreateProject := false,
    newProjectName := "", newProjectDesc := "", uploadType := none,
    isPublic := false, selectedCategory := "", selectedColor := "",
    filterCategory := "all", notes := "", file := none, previewUrl := none,
    urlShare := none, alerts := [] }

/-- Concrete signed-in user. -/
def sampleUser : UserT := { id := "user-1" }

/-- Concrete project owned by `sampleUser`. -/
def sampleProject : Project :=
  { id := "proj-1", name := "Sketchbook", description := "",
    created_at := "2026-01-01", user_id := "user-1", share_id := some "tok-1" }

/-- Second concrete project, distinct from `sampleProject`. -/
def sampleProject2 : Project :=
  { id := "proj-2", name := "Songs", description := "demo",
    created_at := "2026-01-02", user_id := "user-1", share_id := none }

/-- Concrete public image entry of `sampleProject`. -/
def sampleEntry : ProgressEntry :=
  { id := "entry-1", type := EntryType.image, url := some "https://cdn.example/x.png",
    notes := "wip", timestamp := 100, project_id := "proj-1",
    user_id := some "user-1", is_public := true, category := none, color := none }

/-! Claim theorems. -/

/-- C10: a file selected in the upload form is classified as `image` exactly
when its declared content type starts with `image/` and as `audio` in every
other case; the file is always accepted into the form state (no content type
is rejected), so for example a `video/mp4` file becomes an `audio` entry. -/
theorem fileChange_classification (st : AppState) (f : FileT) (u : String) :
    (handleFileChange st (some f) u).uploadType
        = some (if strStartsWith f.ctype "image/" then EntryType.image
                else EntryType.audio)
      ∧ (handleFileChange st (some f) u).file = some f
      ∧ (handleFileChange st (some { name := "clip.mp4", ctype := "video/mp4" }) u).uploadType
        = some EntryType.audio
      ∧ (handleFileChange st (some { name := "doc.pdf", ctype := "application/pdf" }) u).uploadType
        = some EntryType.audio :=
  ⟨rfl, rfl, rfl, rfl⟩

/-- C9: a successful entry deletion refetches only the selected project's
entry list; `publicEntries` and the `allEntries` heatmap aggregate are left
unchanged locally, so an entry already in the local public feed list stays in
it (and its timestamp stays counted) until those lists are next refetched. -/
theorem deleteEntry_refetch_frame (st : AppState) (p : Project)
    (hsel : st.selectedProject = some p)
    (entriesResp : Option (List ProgressEntry)) :
    (handleDeleteEntry st true none entriesResp).publicEntries = st.publicEntries
      ∧ (handleDeleteEntry st true none entriesResp).allEntries = st.allEntries
      ∧ (∀ l, entriesResp = some l →
          (handleDeleteEntry st true none entriesResp).entries = l)
      ∧ ∀ e, e ∈ st.publicEntries →
          e ∈ (handleDeleteEntry st true none entriesResp).publicEntries := by
  simp only [handleDeleteEntry, hsel, Bool.not_true]
  cases entriesResp <;> simp [fetchEntries]

/-- Concrete pre-state for the C9 witness: `sampleProject` selected, one
public entry cached in every list. -/
def stDel : AppState :=
  { emptyState with
    user := some sampleUser, view := View.project,
    selectedProject := some sampleProject, entries := [sampleEntry],
    publicEntries := [sampleEntry], allEntries := [100] }

/-- C9 witness: deleting the only entry of `sampleProject` (successful delete,
refetch returns the now-empty list) keeps it in the local public feed and its
timestamp in the heatmap aggregate. -/
theorem deleteEntry_refetch_frame_witness :
    (handleDeleteEntry stDel true none (some [])).publicEntries = [sampleEntry]
      ∧ (handleDeleteEntry stDel true none (some [])).allEntries = [100]
      ∧ (handleDeleteEntry stDel true none (some [])).entries = []
      ∧ sampleEntry ∈ (handleDeleteEntry stDel true none (some [])).publicEntries := by
  have h := deleteEntry_refetch_frame stDel sampleProject rfl (some [])
  exact ⟨h.1, h.2.1, h.2.2.1 [] rfl, h.2.2.2 sampleEntry (by simp [stDel])⟩

/-- Concrete pre-state for the C4 results: signed in, viewing a project, one
project and one entry cached, no share token in the URL. -/
def stOwn : AppState :=
  { emptyState with
    user := some sampleUser, view := View.project,
    selectedProject := some sampleProject, projects := [sampleProject],
    entries := [sampleEntry] }

/-- C4 counterexample: signing out with no share token in the URL clears the
project list but leaves the in-memory `entries` list untouched (here it still
holds one entry), so the claim that on sign-out "the locally cached projects
and entries are cleared" is false for the entries list. -/
theorem signOut_keeps_entries_counterexample :
    (onAuthStateChange stOwn none none none).entries = [sampleEntry]
      ∧ [sampleEntry] ≠ ([] : List ProgressEntry)
      ∧ (onAuthStateChange stOwn none none none).projects = []
      ∧ (onAuthStateChange stOwn none none none).view = View.home :=
  ⟨rfl, by simp, rfl, rfl⟩

/-- C4 (amended): on sign-out, if the URL carries no share token the locally
cached project list is cleared and the view returns to home while the entries
list is left as it was; if a share token is still present, the cached shared
project, its entries and the current view are all left unchanged (shared
viewing survives sign-out). -/
theorem signOut_reconciliation (st : AppState)
    (projResp : Option (List Project)) (allResp : Option (List Nat)) :
    (st.urlShare = none →
        (onAuthStateChange st none projResp allResp).projects = []
          ∧ (onAuthStateChange st none projResp allResp).view = View.home
          ∧ (onAuthStateChange st none projResp allResp).entries = st.entries)
      ∧ ∀ tok, st.urlShare = some tok →
          (onAuthStateChange st none projResp allResp).projects = st.projects
            ∧ (onAuthStateChange st none projResp allResp).entries = st.entries
            ∧ (onAuthStateChange st none projResp allResp).view = st.view
            ∧ (onAuthStateChange st none projResp allResp).selectedProject
                = st.selectedProject := by
  constructor
  · intro h
    simp [onAuthStateChange, h]
  · intro tok h
    simp [onAuthStateChange, h]

/-- Concrete pre-state for the shared-viewing half of the C4 witness: an
anonymous visitor on a shared project with the token still in the URL. -/
def stShared : AppState :=
  { emptyState with
    view := View.project, selectedProject := some sampleProject,
    entries := [sampleEntry], urlShare := some "tok-1" }

/-- C4 witness: both halves of the amended sign-out behaviour at concrete
states — without a token (`stOwn`) projects are cleared, view returns home,
entries stay; with a token (`stShared`) everything stays. -/
theorem signOut_reconciliation_witness :
    ((onAuthStateChange stOwn none none none).projects = []
      ∧ (onAuthStateChange stOwn none none none).view = View.home
      ∧ (onAuthStateChange stOwn none none none).entries = stOwn.entries)
      ∧ ((onAuthStateChange stShared none none none).projects = stShared.projects
        ∧ (onAuthStateChange stShared none none none).entries = stShared.entries
        ∧ (onAuthStateChange stShared none none none).view = stShared.view
        ∧ (onAuthStateChange stShared none none none).selectedProject
            = stShared.selectedProject) :=
  ⟨(signOut_reconciliation stOwn none none).1 rfl,
   (signOut_reconciliation stShared none none).2 "tok-1" rfl⟩

/-- Concrete pre-state for the C3 counterexample: `sampleProject` selected and
the category filter set to a specific category. -/
def stFiltered : AppState :=
  { emptyState with
    user := some sampleUser, view := View.dashboard,
    selectedProject := some sampleProject, projects := [sampleProject, sampleProject2],
    filterCategory := "アイデア" }

/-- C3 counterexample: selecting a *different* project (`sampleProject2` while
`sampleProject` is the selected one) leaves the category filter at "アイデア"
instead of resetting it to "all" — `handleSelectProject` never touches
`filterCategory` — so the claim's "resets to all exactly when a different
project is selected" is false. -/
theorem selectProject_keeps_filter_counterexample :
    (handleSelectProject stFiltered sampleProject2 (some [])).filterCategory = "アイデア"
      ∧ stFiltered.selectedProject = some sampleProject
      ∧ sampleProject2 ≠ sampleProject
      ∧ ("アイデア" : String) ≠ "all" :=
  ⟨rfl, rfl, by decide, by decide⟩

/-- C3 (amended): navigating away from the project view via the back action
clears the in-memory entry list and resets the selected-project reference to
null; the category filter is never reset automatically — selecting any
project (same or different) and opening or closing either modal all leave it
unchanged (it only changes through the explicit filter buttons). -/
theorem navigation_clear_and_filter_persistence :
    (∀ st : AppState, st.view = View.project →
        (handleBack st).entries = [] ∧ (handleBack st).selectedProject = none)
      ∧ (∀ (st : AppState) (p : Project) (r : Option (List ProgressEntry)),
          (handleSelectProject st p r).filterCategory = st.filterCategory)
      ∧ (∀ st : AppState,
          (openCreateProjectModal st).filterCategory = st.filterCategory
            ∧ (closeCreateProjectModal st).filterCategory = st.filterCategory
            ∧ (openUploadModal st).filterCategory = st.filterCategory
            ∧ (closeUploadModal st).filterCategory = st.filterCategory)
      ∧ ∀ (st : AppState) (e : ProgressEntry),
          (handleEdit st e).filterCategory = st.filterCategory := by
  refine ⟨?_, ?_, ?_, ?_⟩
  · intro st hview
    by_cases h : st.urlShare.isSome <;> simp [handleBack, h, hview]
  · intro st p r
    cases r <;> simp [handleSelectProject, fetchEntries]
  · intro st
    exact ⟨rfl, rfl, rfl, rfl⟩
  · intro st e
    rfl

/-- C3 witness: the amended navigation behaviour at a concrete state —
backing out of `sampleProject` clears the entry list and the selection, and
neither selecting a project nor the modal operations move the filter off
"アイデア". -/
theorem navigation_clear_and_filter_persistence_witness :
    ((handleBack { stFiltered with view := View.project }).entries = []
      ∧ (handleBack { stFiltered with view := View.project }).selectedProject = none)
      ∧ (handleSelectProject stFiltered sampleProject2 (some [])).filterCategory
          = stFiltered.filterCategory
      ∧ (openCreateProjectModal stFiltered).filterCategory = stFiltered.filterCategory
      ∧ (handleEdit stFiltered sampleEntry).filterCategory = stFiltered.filterCategory :=
  ⟨navigation_clear_and_filter_persistence.1 { stFiltered with view := View.project } rfl,
   navigation_clear_and_filter_persistence.2.1 stFiltered sampleProject2 (some []),
   (navigation_clear_and_filter_persistence.2.2.1 stFiltered).1,
   navigation_clear_and_filter_persistence.2.2.2 stFiltered sampleEntry⟩

/-- C1: starting the application with a share token in the URL that the store
cannot resolve (`sharedResp = none`, covering both an error and an unknown or
revoked token) raises the invalid-link alert and strips the token from the
URL; the startup then falls back to the other two initial conditions — an
anonymous visitor ends on the home view with the auth view rendered, and a
signed-in visitor gets exactly the project list that the no-token startup
would load. -/
theorem invalid_share_token_fallback (st : AppState) (tok : String)
    (session : Option UserT)
    (projResp : Option (List Project)) (allResp : Option (List Nat))
    (projResp2 : Option (List Project)) (allResp2 : Option (List Nat))
    (hshare : st.urlShare = some tok) :
    (startup st session none none projResp allResp projResp2 allResp2).alerts
        = st.alerts ++ ["共有リンクが無効、または期限切れです。"]
      ∧ (startup st session none none projResp allResp projResp2 allResp2).urlShare = none
      ∧ (session = none →
          (startup st session none none projResp allResp projResp2 allResp2).view = View.home
            ∧ showsAuthView (startup st session none none projResp allResp projResp2 allResp2)
                = true)
      ∧ ∀ u, session = some u →
          (startup st session none none projResp allResp projResp2 allResp2).projects
            = (init { st with urlShare := none } session none none projResp2 allResp2).projects := by
  cases session with
  | none =>
      cases projResp2 <;>
        simp [startup, init, onAuthStateChange, handleLoadSharedProject, pushAlert,
              fetchProjectsWithUser, fetchAllEntries, showsAuthView, isSharedView, hshare]
  | some u =>
      cases projResp2 <;> cases allResp2 <;>
        simp [startup, init, onAuthStateChange, handleLoadSharedProject, pushAlert,
              fetchProjectsWithUser, fetchAllEntries, showsAuthView, isSharedView, hshare]

/-- Concrete boot state for the C1 witness: fresh tab with an unresolvable
share token in the URL. -/
def stBoot : AppState := { emptyState with urlShare := some "bad-tok" }

/-- C1 witness: at `stBoot` the alert is raised, the token stripped, the
anonymous startup lands on home with the auth view, and the signed-in startup
loads the same project list a token-free startup loads. -/
theorem invalid_share_token_fallback_witness :
    ((startup stBoot none none none none none none none).alerts
        = stBoot.alerts ++ ["共有リンクが無効、または期限切れです。"]
      ∧ (startup stBoot none none none none none none none).urlShare = none
      ∧ (startup stBoot none none none none none none none).view = View.home
      ∧ showsAuthView (startup stBoot none none none none none none none) = true)
      ∧ (startup stBoot (some sampleUser) none none none none
            (some [sampleProject]) none).projects
          = (init { stBoot with urlShare := none } (some sampleUser) none none
              (some [sampleProject]) none).projects := by
  have h1 := invalid_share_token_fallback stBoot "bad-tok" none none none none none rfl
  have h2 := invalid_share_token_fallback stBoot "bad-tok" (some sampleUser)
    none none (some [sampleProject]) none rfl
  exact ⟨⟨h1.1, h1.2.1, (h1.2.2.1 rfl).1, (h1.2.2.1 rfl).2⟩,
         h2.2.2.2 sampleUser rfl⟩

/-- The four local lists of the data-sync layer agree between two states. -/
def listsUnchanged (a b : AppState) : Prop :=
  a.projects = b.projects ∧ a.entries = b.entries
    ∧ a.publicEntries = b.publicEntries ∧ a.allEntries = b.allEntries

/-- C2: every failing mutating operation — creating or updating a project,
the shared database write that creates or updates an entry, the media storage
upload, and entry deletion — appends a user-visible message and leaves the
local `projects`, `entries`, `publicEntries` and `allEntries` lists exactly
as they were. -/
theorem mutation_failure_frame (st : AppState) (m uuid v : String) (now : Nat)
    (presp e2 p2 : Option (List ProgressEntry)) :
    (st.newProjectName ≠ "" →
        listsUnchanged (handleCreateProject st uuid (Except.error m) (Except.error m) presp) st
          ∧ (handleCreateProject st uuid (Except.error m) (Except.error m) presp).alerts
              = st.alerts ++ ["エラー: " ++ m])
      ∧ (∀ ut, st.uploadType = some ut →
          ¬(st.selectedProject = none ∧ st.editingEntry = none) →
          ¬(ut ≠ EntryType.text ∧ st.file = none ∧ st.editingEntry = none) →
          ¬(ut = EntryType.text ∧ strTrim st.notes = "") →
          listsUnchanged (handleUpload st now (Except.ok v) (Except.error m) e2 p2).state st
            ∧ (handleUpload st now (Except.ok v) (Except.error m) e2 p2).state.alerts
                = st.alerts ++ ["保存失敗: " ++ uploadErrMsg m])
      ∧ (∀ ut, st.uploadType = some ut →
          ut ≠ EntryType.text → st.file.isSome →
          ¬(st.selectedProject = none ∧ st.editingEntry = none) →
          listsUnchanged (handleUpload st now (Except.error m) (Except.ok []) e2 p2).state st
            ∧ (handleUpload st now (Except.error m) (Except.ok []) e2 p2).state.alerts
                = st.alerts ++ ["保存失敗: " ++ uploadErrMsg m])
      ∧ listsUnchanged (handleDeleteEntry st true (some m) presp) st
      ∧ (handleDeleteEntry st true (some m) presp).alerts
          = st.alerts ++ ["削除失敗: " ++ m] := by
  refine ⟨?_, ?_, ?_, ?_, ?_⟩
  · intro hname
    cases hep : st.editingProject <;>
      simp [handleCreateProject, hname, hep, pushAlert, listsUnchanged]
  · intro ut hut h1 h2 h3
    simp only [handleUpload, hut, if_neg h1, if_neg h2, if_neg h3]
    by_cases hf : ut ≠ EntryType.text ∧ (AppState.file { st with uploading := true }).isSome <;>
      simp [hf, uploadSave, pushAlert, listsUnchanged]
  · intro ut hut hmedia hfile h1
    have hfn : st.file ≠ none := by
      intro h
      rw [h] at hfile
      exact Bool.false_ne_true hfile
    have h2 : ¬(ut ≠ EntryType.text ∧ st.file = none ∧ st.editingEntry = none) :=
      fun h => hfn h.2.1
    have h3 : ¬(ut = EntryType.text ∧ strTrim st.notes = "") := fun h => hmedia h.1
    have hf : ut ≠ EntryType.text ∧ (AppState.file { st with uploading := true }).isSome :=
      ⟨hmedia, hfile⟩
    simp [handleUpload, hut, if_neg h1, if_neg h2, if_neg h3, hf, hfn, pushAlert,
          listsUnchanged]
  · simp [handleDeleteEntry, pushAlert, listsUnchanged]
  · simp [handleDeleteEntry, pushAlert]

/-- Concrete pre-state for the C2 witness: project modal filled in. -/
def stCreate : AppState :=
  { emptyState with
    user := some sampleUser, showCreateProject := true, newProjectName := "Box" }

/-- Concrete pre-state for the C2 witness: upload form filled with an image
file for `sampleProject`. -/
def stUpload : AppState :=
  { emptyState with
    user := some sampleUser, view := View.project,
    selectedProject := some sampleProject, projects := [sampleProject],
    entries := [sampleEntry], publicEntries := [sampleEntry], allEntries := [100],
    showUpload := true, uploadType := some EntryType.image,
    file := some { name := "a.png", ctype := "image/png" }, notes := "next step" }

/-- C2 witness: each failing operation at a concrete state — project save,
entry database write, storage upload and entry deletion — leaves all four
lists untouched and appends its alert. -/
theorem mutation_failure_frame_witness :
    (listsUnchanged
        (handleCreateProject stCreate "u1" (Except.error "boom") (Except.error "boom") none)
        stCreate
      ∧ (handleCreateProject stCreate "u1" (Except.error "boom") (Except.error "boom") none).alerts
          = stCreate.alerts ++ ["エラー: " ++ "boom"])
      ∧ (listsUnchanged
          (handleUpload stUpload 7 (Except.ok "https://cdn.example/f.png")
            (Except.error "boom") none none).state stUpload
        ∧ (handleUpload stUpload 7 (Except.ok "https://cdn.example/f.png")
            (Except.error "boom") none none).state.alerts
            = stUpload.alerts ++ ["保存失敗: " ++ uploadErrMsg "boom"])
      ∧ (listsUnchanged
          (handleUpload stUpload 7 (Except.error "boom") (Except.ok []) none none).state
          stUpload
        ∧ (handleUpload stUpload 7 (Except.error "boom") (Except.ok []) none none).state.alerts
            = stUpload.alerts ++ ["保存失敗: " ++ uploadErrMsg "boom"])
      ∧ listsUnchanged (handleDeleteEntry stUpload true (some "boom") none) stUpload
      ∧ (handleDeleteEntry stUpload true (some "boom") none).alerts
          = stUpload.alerts ++ ["削除失敗: " ++ "boom"] := by
  have hc := mutation_failure_frame stCreate "boom" "u1" "x" 7 none none none
  have hu := mutation_failure_frame stUpload "boom" "u1"
    "https://cdn.example/f.png" 7 none none none
  exact ⟨hc.1 (by decide),
         hu.2.1 EntryType.image rfl (by decide) (by decide) (by decide),
         hu.2.2.1 EntryType.image rfl (by decide) (by decide) (by decide),
         hu.2.2.2.1, hu.2.2.2.2⟩

/-- Helper: `uploadSave` always reports the row it sent to the store, namely
the built `newEntry`. -/
theorem uploadSave_written (st : AppState) (ut : EntryType) (finalUrl : String)
    (now : Nat) (dbResp : Except String (List ProgressEntry))
    (e2 p2 : Option (List ProgressEntry)) (att : Bool) :
    (uploadSave st ut finalUrl now dbResp e2 p2 att).written
      = some (buildEntryWrite st ut finalUrl now) := by
  cases dbResp with
  | error m => rfl
  | ok l => cases l <;> rfl

/-- Helper: `uploadSave` passes the storage-attempt flag through unchanged. -/
theorem uploadSave_attempted (st : AppState) (ut : EntryType) (finalUrl : String)
    (now : Nat) (dbResp : Except String (List ProgressEntry))
    (e2 p2 : Option (List ProgressEntry)) (att : Bool) :
    (uploadSave st ut finalUrl now dbResp e2 p2 att).storageAttempted = att := by
  cases dbResp with
  | error m => rfl
  | ok l => cases l <;> rfl

/-- Helper: inversion for a `handleUpload` run that issued a database write.
It recovers the upload type, the fact that all three guards passed, and the
identity of the written row: either the storage step ran and supplied the URL,
or no storage step ran and `finalUrl` is empty. -/
theorem handleUpload_written_inv (st : AppState) (now : Nat)
    (sResp : Except String String) (dResp : Except String (List ProgressEntry))
    (e2 p2 : Option (List ProgressEntry)) (w : EntryWrite)
    (h : (handleUpload st now sResp dResp e2 p2).written = some w) :
    ∃ ut, st.uploadType = some ut
      ∧ ¬(st.selectedProject = none ∧ st.editingEntry = none)
      ∧ ¬(ut ≠ EntryType.text ∧ st.file = none ∧ st.editingEntry = none)
      ∧ ¬(ut = EntryType.text ∧ strTrim st.notes = "")
      ∧ ((∃ v, ut ≠ EntryType.text ∧ st.file.isSome = true ∧ sResp = Except.ok v
            ∧ w = buildEntryWrite { st with uploading := true } ut v now)
          ∨ (¬(ut ≠ EntryType.text ∧ st.file.isSome = true)
            ∧ w = buildEntryWrite { st with uploading := true } ut "" now)) := by
  cases hut : st.uploadType with
  | none => simp [handleUpload, hut] at h
  | some ut =>
      refine ⟨ut, rfl, ?_⟩
      simp only [handleUpload, hut] at h
      by_cases h1 : st.selectedProject = none ∧ st.editingEntry = none
      · simp [h1] at h
      by_cases h2 : ut ≠ EntryType.text ∧ st.file = none ∧ st.editingEntry = none
      · simp [h1, h2] at h
      by_cases h3 : ut = EntryType.text ∧ strTrim st.notes = ""
      · simp [h1, h2, h3] at h
      refine ⟨h1, h2, h3, ?_⟩
      simp only [if_neg h1, if_neg h2, if_neg h3] at h
      by_cases hf : ut ≠ EntryType.text ∧ (AppState.file { st with uploading := true }).isSome
      · simp only [if_pos hf] at h
        cases sResp with
        | error m => simp at h
        | ok v =>
            rw [uploadSave_written] at h
            exact Or.inl ⟨v, hf.1, hf.2, rfl, (Option.some_inj.mp h).symm⟩
      · simp only [if_neg hf] at h
        rw [uploadSave_written] at h
        exact Or.inr ⟨hf, (Option.some_inj.mp h).symm⟩

/-- C5: a saved text entry always has a null `url` and never triggers a
storage upload, and a whitespace-only note blocks the save entirely; a saved
image or audio entry has a non-empty `url` (given that the storage service
returns non-empty public URLs and that an edited media entry's stored URL is
non-empty), and without a file the save only proceeds when an existing entry
is being edited. -/
theorem entry_type_url_discipline (st : AppState) (now : Nat)
    (sResp : Except String String) (dResp : Except String (List ProgressEntry))
    (e2 p2 : Option (List ProgressEntry)) :
    (∀ w, st.uploadType = some EntryType.text →
        (handleUpload st now sResp dResp e2 p2).written = some w →
        w.type = EntryType.text ∧ w.url = none)
      ∧ (st.uploadType = some EntryType.text →
          (handleUpload st now sResp dResp e2 p2).storageAttempted = false)
      ∧ (st.uploadType = some EntryType.text → strTrim st.notes = "" →
          (handleUpload st now sResp dResp e2 p2).written = none
            ∧ (handleUpload st now sResp dResp e2 p2).state = st)
      ∧ (∀ ut, st.uploadType = some ut → ut ≠ EntryType.text →
          st.file = none → st.editingEntry = none →
          (handleUpload st now sResp dResp e2 p2).written = none
            ∧ (handleUpload st now sResp dResp e2 p2).state = st)
      ∧ (∀ ut w, st.uploadType = some ut → ut ≠ EntryType.text →
          (∀ v, sResp = Except.ok v → v ≠ "") →
          (∀ e, st.editingEntry = some e → ∃ s, e.url = some s ∧ s ≠ "") →
          (handleUpload st now sResp dResp e2 p2).written = some w →
          ∃ s, w.url = some s ∧ s ≠ "") := by
  refine ⟨?_, ?_, ?_, ?_, ?_⟩
  · intro w hut hw
    obtain ⟨ut, hut2, -, -, -, hcase⟩ := handleUpload_written_inv st now sResp dResp e2 p2 w hw
    rw [hut] at hut2
    obtain rfl : EntryType.text = ut := Option.some_inj.mp hut2
    rcases hcase with ⟨v, hne, -⟩ | ⟨-, rfl⟩
    · exact absurd rfl hne
    · exact ⟨rfl, by simp [buildEntryWrite]⟩
  · intro hut
    simp only [handleUpload, hut]
    split_ifs <;> simp_all [uploadSave_attempted]
  · intro hut hnotes
    simp only [handleUpload, hut]
    by_cases h1 : st.selectedProject = none ∧ st.editingEntry = none
    · simp [h1]
    · simp [h1, hnotes]
  · intro ut hut hne hfile hedit
    simp only [handleUpload, hut]
    by_cases h1 : st.selectedProject = none ∧ st.editingEntry = none
    · simp [h1]
    · have h2 : ut ≠ EntryType.text ∧ st.file = none ∧ st.editingEntry = none :=
        ⟨hne, hfile, hedit⟩
      simp [h1, h2]
  · intro ut w hut hne hurl hedit hw
    obtain ⟨ut2, hut2, -, h2, -, hcase⟩ :=
      handleUpload_written_inv st now sResp dResp e2 p2 w hw
    rw [hut] at hut2
    obtain rfl : ut = ut2 := Option.some_inj.mp hut2
    rcases hcase with ⟨v, -, -, hok, rfl⟩ | ⟨hnf, rfl⟩
    · have hv : v ≠ "" := hurl v hok
      exact ⟨v, by simp [buildEntryWrite, hne, hv], hv⟩
    · have hfnone : st.file = none := by
        rcases hsf : st.file with _ | f
        · rfl
        · exact absurd ⟨hne, by simp [hsf]⟩ hnf
      have heds : st.editingEntry ≠ none := fun hn => h2 ⟨hne, hfnone, hn⟩
      rcases hee : st.editingEntry with _ | e
      · exact absurd hee heds
      · obtain ⟨s, hs, hsne⟩ := hedit e hee
        exact ⟨s, by simp [buildEntryWrite, hne, hee, hs], hsne⟩

/-- C6: for every edit of an existing entry, the row written to the store
keeps the edited entry's original `timestamp` and `project_id`, and when no
new file is chosen the previously stored media URL is preserved verbatim. -/
theorem edit_preserves_fields (st : AppState) (now : Nat)
    (sResp : Except String String) (dResp : Except String (List ProgressEntry))
    (e2 p2 : Option (List ProgressEntry)) (e : ProgressEntry) (w : EntryWrite)
    (he : st.editingEntry = some e)
    (hw : (handleUpload st now sResp dResp e2 p2).written = some w) :
    w.timestamp = e.timestamp ∧ w.project_id = e.project_id
      ∧ ∀ ut, st.uploadType = some ut → ut ≠ EntryType.text →
          st.file = none → w.url = e.url := by
  obtain ⟨ut, hut, -, -, -, hcase⟩ := handleUpload_written_inv st now sResp dResp e2 p2 w hw
  rcases hcase with ⟨v, -, hsome, -, rfl⟩ | ⟨-, rfl⟩
  · refine ⟨by simp [buildEntryWrite, he], by simp [buildEntryWrite, he], ?_⟩
    intro ut2 hut2 hne hfile
    rw [hfile] at hsome
    simp at hsome
  · refine ⟨by simp [buildEntryWrite, he], by simp [buildEntryWrite, he], ?_⟩
    intro ut2 hut2 hne hfile
    rw [hut] at hut2
    obtain rfl : ut = ut2 := Option.some_inj.mp hut2
    simp [buildEntryWrite, hne, he]

/-- Concrete pre-state for the C5 witness: text entry form filled in. -/
def stText : AppState :=
  { emptyState with
    user := some sampleUser, view := View.project,
    selectedProject := some sampleProject, showUpload := true,
    uploadType := some EntryType.text, notes := "idea: blue palette" }

/-- Concrete pre-state for the C5 witness: whitespace-only note. -/
def stTextBlank : AppState := { stText with notes := "   " }

/-- Concrete pre-state for the C5 witness: media upload without a file and
without an entry being edited. -/
def stNoFile : AppState := { stUpload with file := none }

/-- The row written by the text run of the C5 witness. -/
def wText : EntryWrite :=
  { type := EntryType.text, url := none, notes := "idea: blue palette",
    timestamp := 7, project_id := "proj-1", user_id := some "user-1",
    is_public := false, category := none, color := none }

/-- The row written by the media run of the C5 witness. -/
def wMedia : EntryWrite :=
  { type := EntryType.image, url := some "https://cdn.example/f.png",
    notes := "next step", timestamp := 7, project_id := "proj-1",
    user_id := some "user-1", is_public := false, category := none, color := none }

/-- C5 witness: concrete runs — a text save writes a text row with null URL
and no storage attempt, a whitespace-only note blocks the save, a media save
without a file (and nothing being edited) blocks, and a media save writes the
freshly uploaded non-empty URL. -/
theorem entry_type_url_discipline_witness :
    (wText.type = EntryType.text ∧ wText.url = none)
      ∧ (handleUpload stText 7 (Except.ok "https://cdn.example/f.png")
          (Except.ok []) none none).storageAttempted = false
      ∧ (handleUpload stTextBlank 7 (Except.ok "https://cdn.example/f.png")
          (Except.ok []) none none).written = none
      ∧ (handleUpload stNoFile 7 (Except.ok "https://cdn.example/f.png")
          (Except.ok []) none none).written = none
      ∧ ∃ s, wMedia.url = some s ∧ s ≠ "" := by
  have hT := entry_type_url_discipline stText 7
    (Except.ok "https://cdn.example/f.png") (Except.ok []) none none
  have hB := entry_type_url_discipline stTextBlank 7
    (Except.ok "https://cdn.example/f.png") (Except.ok []) none none
  have hN := entry_type_url_discipline stNoFile 7
    (Except.ok "https://cdn.example/f.png") (Except.ok []) none none
  have hM := entry_type_url_discipline stUpload 7
    (Except.ok "https://cdn.example/f.png") (Except.ok []) none none
  refine ⟨hT.1 wText rfl (by rfl), hT.2.1 rfl, (hB.2.2.1 rfl (by rfl)).1,
          (hN.2.2.2.1 EntryType.image rfl (by decide) rfl rfl).1,
          hM.2.2.2.2 EntryType.image wMedia rfl (by decide) ?_ ?_ (by rfl)⟩
  · intro v hv
    cases hv
    decide
  · intro e he
    exact absurd he (by simp [stUpload, emptyState])

/-- Concrete pre-state for the C6 witness: editing `sampleEntry` with the
notes changed and no new file chosen. -/
def stEdit : AppState :=
  { emptyState with
    user := some sampleUser, view := View.project,
    selectedProject := some sampleProject, showUpload := true,
    editingEntry := some sampleEntry, uploadType := some EntryType.image,
    notes := "edited", isPublic := true }

/-- The row written by the edit run of the C6 witness. -/
def wEdit : EntryWrite :=
  { type := EntryType.image, url := some "https://cdn.example/x.png",
    notes := "edited", timestamp := 100, project_id := "proj-1",
    user_id := some "user-1", is_public := true, category := none, color := none }

/-- C6 witness: editing `sampleEntry` without choosing a new file writes a row
with the entry's original timestamp, project reference and media URL. -/
theorem edit_preserves_fields_witness :
    wEdit.timestamp = sampleEntry.timestamp
      ∧ wEdit.project_id = sampleEntry.project_id
      ∧ wEdit.url = sampleEntry.url := by
  have h := edit_preserves_fields stEdit 7 (Except.ok "unused")
    (Except.ok [sampleEntry]) none none sampleEntry wEdit rfl (by rfl)
  exact ⟨h.1, h.2.1, h.2.2 EntryType.image rfl (by decide) rfl⟩

/-- C7: immediately after a successful project creation, the project put at
the head of the local list carries the freshly generated client-side
`share_id` (never null), the submitted name and description, and the current
user's id — given that the store echoes the inserted `name`, `description`
and `user_id` in the returned row, per the insert-returning-row contract. -/
theorem created_project_fields (st : AppState) (uuid : String) (u : UserT)
    (row : ProjectRow) (updResp : Except String (List Project))
    (presp : Option (List ProgressEntry))
    (hname : st.newProjectName ≠ "")
    (hedit : st.editingProject = none)
    (huser : st.user = some u)
    (hrowName : row.name = st.newProjectName)
    (hrowDesc : row.description = st.newProjectDesc)
    (hrowUid : row.user_id = u.id) :
    ∃ cp : Project,
      (handleCreateProject st uuid updResp (Except.ok [row]) presp).projects.head? = some cp
        ∧ cp.share_id = some uuid
        ∧ cp.name = st.newProjectName
        ∧ cp.description = st.newProjectDesc
        ∧ cp.user_id = u.id := by
  refine ⟨{ id := row.id, name := row.name, description := row.description,
            created_at := row.created_at, user_id := row.user_id,
            share_id := some uuid }, ?_, rfl, hrowName, hrowDesc, hrowUid⟩
  cases presp <;>
    simp [handleCreateProject, hname, hedit, handleSelectProject, fetchEntries]

/-- Row returned by the store for the C7 and C8 runs, echoing the inserted
fields. -/
def rowBox : ProjectRow :=
  { id := "proj-9", name := "Box", description := "",
    created_at := "2026-02-02", user_id := "user-1" }

/-- C7 witness: creating the "Box" project at `stCreate` puts a project with
the fresh share token, the submitted fields and the current user's id at the
head of the list. -/
theorem created_project_fields_witness :
    ∃ cp : Project,
      (handleCreateProject stCreate "uuid-1" (Except.ok []) (Except.ok [rowBox])
          none).projects.head? = some cp
        ∧ cp.share_id = some "uuid-1"
        ∧ cp.name = stCreate.newProjectName
        ∧ cp.description = stCreate.newProjectDesc
        ∧ cp.user_id = sampleUser.id :=
  created_project_fields stCreate "uuid-1" sampleUser rowBox (Except.ok []) none
    (by decide) rfl rfl rfl rfl rfl

/-- Concrete state for the C8 evaluation: signed-in user with a stale share
token still in the URL and the project modal filled in. -/
def stStale : AppState :=
  { emptyState with
    user := some sampleUser, showCreateProject := true,
    newProjectName := "Box", urlShare := some "stale-tok" }

/-- C8: evaluation of the code at the failing input.  When a new project is
successfully created while a stale `share` token sits in the URL, the current
`handleCreateProject` (App.tsx 1562-1585) leaves the token in the URL — the
create branch contains no `history.replaceState` call — whereas the back
action does strip it (App.tsx 1601-1605).  The spec (and the previous
revision of the same file, which called `history.replaceState` in its create
branch) requires the token to be stripped on successful creation as well. -/
theorem createProject_keeps_stale_share_param :
    (handleCreateProject stStale "uuid-1" (Except.ok []) (Except.ok [rowBox])
        none).urlShare = some "stale-tok"
      ∧ (handleCreateProject stStale "uuid-1" (Except.ok []) (Except.ok [rowBox])
          none).projects.length = 1
      ∧ (handleBack stStale).urlShare = none :=
  ⟨rfl, rfl, rfl⟩

end Kakera
